import Mathlib

/-!
Verification development for the voxblox layer-IO and skeleton-generator
headers.  The layer-IO control flow is embedded directly from
`voxblox/io/layer_io.h`; protobuf stream reading, block insertion and the
layer constructors live outside the given sources and are modelled from the
specification, as marked on each definition.
-/

namespace Voxblox

/-- Block coordinate: a 3-integer key identifying a block position. -/
abbrev BlockIndex := ℤ × ℤ × ℤ

/-- Header metadata of a serialized layer: voxel_size (modelled as a
rational), voxels_per_side, and a voxel-kind tag. -/
structure LayerHeader where
  voxel_size : ℚ
  voxels_per_side : Nat
  voxel_kind : Nat
deriving DecidableEq, Repr

/-- A dense voxel block: its world origin and its voxel payload. -/
structure Block (V : Type) where
  origin : ℚ × ℚ × ℚ
  voxels : List V
deriving DecidableEq, Repr

/-- A block message as parsed from the stream: the block coordinate plus the
block payload. -/
structure BlockProto (V : Type) where
  index : BlockIndex
  origin : ℚ × ℚ × ℚ
  voxels : List V
deriving DecidableEq, Repr

/-- A sparse layer: immutable metadata plus an association list from block
coordinate to block, in insertion order. -/
structure Layer (V : Type) where
  voxel_size : ℚ
  voxels_per_side : Nat
  voxel_kind : Nat
  blocks : List (BlockIndex × Block V)
deriving DecidableEq, Repr

/-- Block merging strategies of `Layer::addBlockFromProto`. -/
inductive BlockMergingStrategy where
  | kProhibit
  | kReplace
  | kMerge
deriving DecidableEq, Repr

/-- Keys (block coordinates) currently resident in a block list. -/
def keysOf {V : Type} (blocks : List (BlockIndex × Block V)) : List BlockIndex :=
  blocks.map Prod.fst

/-- Whether the layer already holds a block under the given coordinate. -/
def hasBlock {V : Type} (l : Layer V) (idx : BlockIndex) : Bool :=
  l.blocks.any (fun p => decide (p.1 = idx))

/-- Voxel-wise combination of an existing block with an incoming block,
used by the `kMerge` strategy. -/
def mergeBlock {V : Type} (mergeV : V → V → V) (old : Block V) (new : Block V) :
    Block V :=
  ⟨old.origin, List.zipWith mergeV old.voxels new.voxels⟩

/-- Replace the block stored under `idx` by `b`, keeping list order. -/
def replaceAt {V : Type} (blocks : List (BlockIndex × Block V)) (idx : BlockIndex)
    (b : Block V) : List (BlockIndex × Block V) :=
  blocks.map (fun p => if p.1 = idx then (idx, b) else p)

/-- Combine the block stored under `idx` with `b` voxel-wise. -/
def mergeAt {V : Type} (mergeV : V → V → V) (blocks : List (BlockIndex × Block V))
    (idx : BlockIndex) (b : Block V) : List (BlockIndex × Block V) :=
  blocks.map (fun p => if p.1 = idx then (idx, mergeBlock mergeV p.2 b) else p)

/-- Modelled from the spec: `Layer::addBlockFromProto` (not under src/; only
its callers are). Inserts the decoded block under the merge strategy:
Prohibit fails on an existing key, Replace overwrites it, Merge combines
voxel-wise; a fresh key is appended. Returns none exactly when the insertion
fails. -/
def addBlockFromProto {V : Type} (mergeV : V → V → V) (l : Layer V)
    (bp : BlockProto V) (strategy : BlockMergingStrategy) : Option (Layer V) :=
  let b : Block V := ⟨bp.origin, bp.voxels⟩
  if hasBlock l bp.index then
    match strategy with
    | BlockMergingStrategy.kProhibit => none
    | BlockMergingStrategy.kReplace =>
        some { l with blocks := replaceAt l.blocks bp.index b }
    | BlockMergingStrategy.kMerge =>
        some { l with blocks := mergeAt mergeV l.blocks bp.index b }
  else
    some { l with blocks := l.blocks ++ [(bp.index, b)] }

/-- Modelled from the spec: the serialized stream as seen through
`readProtoMsgCountToStream` / `readProtoMsgFromStream` (protobuf_utils is not
under src/). `opens` is whether the file opens; `count` is the leading
message count, none when unreadable; `header` is the parse result of the
first message as a layer header; `blocks` are the parse results of the
subsequent messages, none marking a malformed message. -/
structure ProtoFile (V : Type) where
  opens : Bool
  count : Option Nat
  header : Option LayerHeader
  blocks : List (Option (BlockProto V))
deriving DecidableEq, Repr

/-- Modelled from the spec: the `Layer(const LayerProto&)` constructor — a
fresh empty layer taking its metadata from the header message. -/
def layerFromProto {V : Type} (hdr : LayerHeader) : Layer V :=
  ⟨hdr.voxel_size, hdr.voxels_per_side, hdr.voxel_kind, []⟩

/-- Modelled from the spec: the `Layer(voxel_size, voxels_per_side)`
constructor — a fresh empty layer from caller-supplied parameters, with the
voxel kind fixed by the voxel type `V` (passed here as `vkind`). -/
def emptyLayer {V : Type} (vkind : Nat) (voxel_size : ℚ) (voxels_per_side : Nat) :
    Layer V :=
  ⟨voxel_size, voxels_per_side, vkind, []⟩

/-- The open / message-count / zero-count / header-read guard sequence shared
by the three load entry points of layer_io.h: result of the header phase,
none on any failure. -/
def headerLoadResult {V : Type} (f : ProtoFile V) : Option LayerHeader :=
  if f.opens then
    match f.count with
    | none => none
    | some n => if n = 0 then none else f.header
  else none

/-- The block-reading loop of layer_io.h (lines 60-74 and 188-201): read `k`
block messages from the stream and insert each into the layer under the
strategy, aborting on the first read or insertion failure. The layer
accumulated so far is returned in either case, because the C++ loop mutates
the destination layer in place. -/
def readBlocks {V : Type} (mergeV : V → V → V) (strategy : BlockMergingStrategy) :
    Nat → List (Option (BlockProto V)) → Layer V → Bool × Layer V
  | 0, _, l => (true, l)
  | _ + 1, [], l => (false, l)
  | _ + 1, none :: _, l => (false, l)
  | k + 1, some bp :: rest, l =>
    match addBlockFromProto mergeV l bp strategy with
    | none => (false, l)
    | some l2 => readBlocks mergeV strategy k rest l2

/-- Sequential insertion of a list of block messages, none if any insertion
fails. Spine of the block-reading loop on the all-successful prefix. -/
def insertSeq {V : Type} (mergeV : V → V → V) (strategy : BlockMergingStrategy) :
    Layer V → List (BlockProto V) → Option (Layer V)
  | l, [] => some l
  | l, bp :: bps =>
    match addBlockFromProto mergeV l bp strategy with
    | none => none
    | some l2 => insertSeq mergeV strategy l2 bps

/-- `LoadLayer` of layer_io.h lines 19-77: open the file, read the message
count, fail on zero, read the header, assign the output pointer a fresh layer
from the header, then read `count - 1` block messages under the Prohibit
strategy. The second component models the caller-owned `*layer_ptr`, which is
assigned before the block loop and left untouched on earlier failures. -/
def LoadLayer {V : Type} (mergeV : V → V → V) (f : ProtoFile V)
    (p : Option (Layer V)) : Bool × Option (Layer V) :=
  if f.opens then
    match f.count with
    | none => (false, p)
    | some n =>
      if n = 0 then (false, p)
      else
        match f.header with
        | none => (false, p)
        | some hdr =>
          let r := readBlocks mergeV BlockMergingStrategy.kProhibit (n - 1)
            f.blocks (layerFromProto hdr)
          (r.1, some r.2)
  else (false, p)

/-- `LoadOrCreateLayerHeader` of layer_io.h lines 83-137: attempt open,
count, zero-check and header read with a cascading success flag; on success
build the layer from the header, on any failure from the caller-supplied
parameters. Always returns a layer (the shared pointer is assigned on both
branches). -/
def LoadOrCreateLayerHeader {V : Type} (vkind : Nat) (f : ProtoFile V)
    (voxel_size : ℚ) (voxels_per_side : Nat) : Option (Layer V) :=
  match headerLoadResult f with
  | some hdr => some (layerFromProto hdr)
  | none => some (emptyLayer vkind voxel_size voxels_per_side)

/-- Modelled from the spec: `Layer::isCompatible(LayerProto)` (not under
src/) — exact match on voxel_size, voxels_per_side and voxel_kind. -/
def isCompatible {V : Type} (l : Layer V) (hdr : LayerHeader) : Bool :=
  decide (l.voxel_size = hdr.voxel_size ∧
    l.voxels_per_side = hdr.voxels_per_side ∧ l.voxel_kind = hdr.voxel_kind)

/-- `LoadBlocksFromFile` of layer_io.h lines 139-203: open, count, zero
check, header read, compatibility check against the existing layer — all
before any block is touched — then the block-reading loop under the given
strategy. The second component is the caller's layer after the call. -/
def LoadBlocksFromFile {V : Type} (mergeV : V → V → V) (f : ProtoFile V)
    (strategy : BlockMergingStrategy) (l : Layer V) : Bool × Layer V :=
  if f.opens then
    match f.count with
    | none => (false, l)
    | some n =>
      if n = 0 then (false, l)
      else
        match f.header with
        | none => (false, l)
        | some hdr =>
          if isCompatible l hdr then
            readBlocks mergeV strategy (n - 1) f.blocks l
          else (false, l)
  else (false, l)

/-- Serialization of one resident block to a block message. -/
def blockToProto {V : Type} (idx : BlockIndex) (b : Block V) : BlockProto V :=
  ⟨idx, b.origin, b.voxels⟩

/-- Modelled from the spec: `Layer::saveToFile` (not under src/) — writes a
total message count, a header message from the layer metadata, then one
block message per resident block in residence order. -/
def saveToFile {V : Type} (l : Layer V) : ProtoFile V :=
  { opens := true
    count := some (l.blocks.length + 1)
    header := some ⟨l.voxel_size, l.voxels_per_side, l.voxel_kind⟩
    blocks := l.blocks.map (fun p => some (blockToProto p.1 p.2)) }

/-- `SaveLayer` of layer_io.h lines 205-208: delegates to
`Layer::saveToFile`; in the model the written stream is returned. -/
def SaveLayer {V : Type} (l : Layer V) : ProtoFile V :=
  saveToFile l

/-- The offset in the 3x3x3 cube denoted by neighborhood index `m`, each
component in -1..1; index 13 is the center. The index-to-offset mapping is
fixed — the spec requires the bit order to be preserved exactly. -/
def coordOf (m : Nat) : ℤ × ℤ × ℤ :=
  ((m % 3 : ℤ) - 1, ((m / 3) % 3 : ℤ) - 1, ((m / 9) % 3 : ℤ) - 1)

/-- Whether two integers differ by at most one. -/
def near1 (x y : ℤ) : Bool :=
  decide ((x - y).natAbs ≤ 1)

/-- 26-adjacency of two cube positions: distinct and within Chebyshev
distance one. -/
def adj26 (a b : Nat) : Bool :=
  decide (a ≠ b) && near1 (coordOf a).1 (coordOf b).1 &&
    near1 (coordOf a).2.1 (coordOf b).2.1 && near1 (coordOf a).2.2 (coordOf b).2.2

/-- 6-adjacency of two cube positions: Manhattan distance exactly one. -/
def adj6 (a b : Nat) : Bool :=
  decide (((coordOf a).1 - (coordOf b).1).natAbs +
    ((coordOf a).2.1 - (coordOf b).2.1).natAbs +
    ((coordOf a).2.2 - (coordOf b).2.2).natAbs = 1)

/-- One expansion step of a connected component: adjoin every member of `s`
adjacent to the component collected so far. -/
def grow (adj : Nat → Nat → Bool) (s : List Nat) (comp : List Nat) : List Nat :=
  comp ++ s.filter (fun m => !comp.contains m && comp.any (fun c => adj c m))

/-- Iterate the expansion step a fixed number of times. -/
def growTimes (adj : Nat → Nat → Bool) (s : List Nat) :
    Nat → List Nat → List Nat
  | 0, comp => comp
  | fuel + 1, comp => growTimes adj s fuel (grow adj s comp)

/-- The connected component of `start` within `s`, by 27 expansion steps
(enough for any subset of the 27-position cube). -/
def component (adj : Nat → Nat → Bool) (s : List Nat) (start : Nat) : List Nat :=
  growTimes adj s 27 [start]

/-- Elements of `xs` not occurring in `ys`. -/
def removeAll (xs ys : List Nat) : List Nat :=
  xs.filter (fun x => !ys.contains x)

/-- Split a position list into its connected components under `adj`. -/
def componentsAux (adj : Nat → Nat → Bool) : Nat → List Nat → List (List Nat)
  | 0, _ => []
  | _ + 1, [] => []
  | fuel + 1, x :: xs =>
    let c := component adj (x :: xs) x
    c :: componentsAux adj fuel (removeAll xs c)

/-- The connected components of a position list under `adj`. -/
def componentsOf (adj : Nat → Nat → Bool) (s : List Nat) : List (List Nat) :=
  componentsAux adj (s.length + 1) s

/-- Foreground positions of the 26-neighborhood (center excluded). -/
def fgList (nb : Nat → Bool) : List Nat :=
  (List.range 27).filter (fun m => decide (m ≠ 13) && nb m)

/-- Background positions of the 18-neighborhood (center and the eight cube
corners excluded). -/
def bgList (nb : Nat → Bool) : List Nat :=
  (List.range 27).filter (fun m =>
    decide (m ≠ 13) &&
    decide (((coordOf m).1.natAbs + (coordOf m).2.1.natAbs +
      (coordOf m).2.2.natAbs) ≤ 2) && !nb m)

/-- Modelled from the spec: `SkeletonGenerator::isSimplePoint` (declared in
skeleton_generator.h, body not under src/) — true iff removing the center
voxel does not change the connectivity of the foreground set, by the
digital-topology simple-point criterion: exactly one 26-connected foreground
component in the 26-neighborhood, and exactly one 6-connected background
component of the 18-neighborhood that is 6-adjacent to the center. -/
def isSimplePoint (nb : Nat → Bool) : Bool :=
  decide ((componentsOf adj26 (fgList nb)).length = 1) &&
  decide (((componentsOf adj6 (bgList nb)).filter
    (fun c => c.any (fun m => adj6 m 13))).length = 1)

/-- The neighborhood of an isolated foreground voxel: the center is
foreground and all 26 neighbors are background. -/
def isolatedNeighborhood : Nat → Bool :=
  fun m => decide (m = 13)

/-- A vertex of the sparse skeleton graph: id, world position, stored
distance. World positions and distances are modelled on a common integer
scale (a fixed-point view of the float coordinates) so that the geometric
comparisons stay exact. -/
structure GVertex where
  vid : Nat
  px : ℤ
  py : ℤ
  pz : ℤ
  dist : ℤ
deriving DecidableEq, Repr

/-- Squared Euclidean distance between two graph vertex positions. -/
def distSq (u v : GVertex) : ℤ :=
  (u.px - v.px) * (u.px - v.px) + (u.py - v.py) * (u.py - v.py) +
    (u.pz - v.pz) * (u.pz - v.pz)

/-- Whether two vertices lie strictly closer than the pruning radius `R`. -/
def withinRadius (R : ℤ) (u v : GVertex) : Bool :=
  decide (distSq u v < R * R)

/-- Whether vertex `v` is demoted: some other vertex within the pruning
radius carries a strictly larger stored distance. -/
def demoted (R : ℤ) (vs : List GVertex) (v : GVertex) : Bool :=
  vs.any (fun u => decide (u.vid ≠ v.vid) && withinRadius R u v &&
    decide (v.dist < u.dist))

/-- Modelled from the spec: `SkeletonGenerator::pruneDiagramVertices`
(declared in skeleton_generator.h, body not under src/) — for every vertex,
search the other vertices within the pruning radius; retain only the ones of
maximum stored distance among their within-radius group, demoting every
vertex dominated by a strictly larger-distance vertex within the radius. -/
def pruneDiagramVertices (R : ℤ) (vs : List GVertex) : List GVertex :=
  vs.filter (fun v => !demoted R vs v)

example : isSimplePoint isolatedNeighborhood = false := by decide

example :
    isSimplePoint (fun m => decide (m = 13) || decide (m = 14)) = true := by
  decide

example :
    pruneDiagramVertices 2 [⟨0, 0, 0, 0, 1⟩, ⟨1, 1, 0, 0, 1⟩] =
      [⟨0, 0, 0, 0, 1⟩, ⟨1, 1, 0, 0, 1⟩] := by
  decide

example :
    pruneDiagramVertices 2 [⟨0, 0, 0, 0, 1⟩, ⟨1, 1, 0, 0, 2⟩] =
      [⟨1, 1, 0, 0, 2⟩] := by
  decide

example : ((1 : ℚ) = 2) = False := by simp

example :
    isCompatible (V := Nat) ⟨1, 8, 0, []⟩ ⟨2, 8, 0⟩ = false := by
  decide

/-! ## Helper lemmas about the block-reading loop -/

lemma readBlocks_consume {V : Type} (mergeV : V → V → V)
    (strategy : BlockMergingStrategy) (good : List (BlockProto V)) :
    ∀ (m : Nat) (tl : List (Option (BlockProto V))) (acc l2 : Layer V),
    insertSeq mergeV strategy acc good = some l2 →
    readBlocks mergeV strategy (good.length + m) (good.map some ++ tl) acc =
      readBlocks mergeV strategy m tl l2 := by
  induction good with
  | nil =>
    intro m tl acc l2 h
    simp only [insertSeq, Option.some.injEq] at h
    subst h
    simp
  | cons bp bps ih =>
    intro m tl acc l2 h
    simp only [insertSeq] at h
    cases hadd : addBlockFromProto mergeV acc bp strategy with
    | none => rw [hadd] at h; exact absurd h (by simp)
    | some lmid =>
      rw [hadd] at h
      have hn : (bp :: bps).length + m = (bps.length + m) + 1 := by
        simp [Nat.add_right_comm]
      rw [hn]
      simp only [List.map_cons, List.cons_append, readBlocks, hadd]
      exact ih m tl lmid l2 h

lemma readBlocks_fail {V : Type} (mergeV : V → V → V)
    (strategy : BlockMergingStrategy) (good : List (BlockProto V))
    (bad : Option (BlockProto V)) (rest : List (Option (BlockProto V)))
    (acc lk : Layer V) (m : Nat)
    (hm : good.length < m)
    (hgood : insertSeq mergeV strategy acc good = some lk)
    (hfail : ∀ b, bad = some b →
      addBlockFromProto mergeV lk b strategy = none) :
    readBlocks mergeV strategy m (good.map some ++ bad :: rest) acc =
      (false, lk) := by
  obtain ⟨k, hk⟩ : ∃ k, m = good.length + (k + 1) := by
    refine ⟨m - good.length - 1, ?_⟩
    omega
  subst hk
  rw [readBlocks_consume mergeV strategy good (k + 1) (bad :: rest) acc lk hgood]
  cases bad with
  | none => simp [readBlocks]
  | some b => simp [readBlocks, hfail b rfl]

lemma readBlocks_ok {V : Type} (mergeV : V → V → V)
    (strategy : BlockMergingStrategy) :
    ∀ (k : Nat) (msgs : List (Option (BlockProto V))) (acc out : Layer V),
    readBlocks mergeV strategy k msgs acc = (true, out) →
    ∃ (good : List (BlockProto V)) (tl : List (Option (BlockProto V))),
      msgs = good.map some ++ tl ∧ good.length = k ∧
      insertSeq mergeV strategy acc good = some out := by
  intro k
  induction k with
  | zero =>
    intro msgs acc out h
    simp only [readBlocks, Prod.mk.injEq] at h
    exact ⟨[], msgs, by simp, rfl, by simp [insertSeq, h.2]⟩
  | succ k ih =>
    intro msgs acc out h
    cases msgs with
    | nil => exact absurd h (by simp [readBlocks])
    | cons hd tl0 =>
      cases hd with
      | none => exact absurd h (by simp [readBlocks])
      | some bp =>
        simp only [readBlocks] at h
        cases hadd : addBlockFromProto mergeV acc bp strategy with
        | none => rw [hadd] at h; exact absurd h (by simp)
        | some lmid =>
          rw [hadd] at h
          obtain ⟨good, tl, hmsgs, hlen, hins⟩ := ih tl0 lmid out h
          exact ⟨bp :: good, tl, by simp [hmsgs], by simp [hlen],
            by simp [insertSeq, hadd, hins]⟩

lemma hasBlock_eq_false {V : Type} (l : Layer V) (idx : BlockIndex)
    (h : idx ∉ keysOf l.blocks) : hasBlock l idx = false := by
  simp only [keysOf, List.mem_map, not_exists] at h
  simp only [hasBlock, List.any_eq_false, decide_eq_true_eq]
  intro p hp hpeq
  exact h p ⟨hp, hpeq⟩

lemma readBlocks_save {V : Type} (mergeV : V → V → V) (vs : ℚ) (vps vk : Nat) :
    ∀ (bs acc : List (BlockIndex × Block V)),
    (keysOf (acc ++ bs)).Nodup →
    readBlocks mergeV BlockMergingStrategy.kProhibit bs.length
      (bs.map (fun p => some (blockToProto p.1 p.2))) ⟨vs, vps, vk, acc⟩ =
    (true, ⟨vs, vps, vk, acc ++ bs⟩) := by
  intro bs
  induction bs with
  | nil =>
    intro acc hnd
    simp [readBlocks]
  | cons hd bs ih =>
    intro acc hnd
    have hkeys : keysOf (acc ++ hd :: bs) =
        keysOf acc ++ hd.1 :: keysOf bs := by
      simp [keysOf]
    rw [hkeys] at hnd
    have hni : hd.1 ∉ keysOf acc := by
      rcases List.nodup_append.mp hnd with ⟨-, -, hdisj⟩
      intro hmem
      exact hdisj hmem (by simp)
    have hhb : hasBlock (⟨vs, vps, vk, acc⟩ : Layer V) hd.1 = false :=
      hasBlock_eq_false _ _ hni
    have hadd : addBlockFromProto mergeV (⟨vs, vps, vk, acc⟩ : Layer V)
        (blockToProto hd.1 hd.2) BlockMergingStrategy.kProhibit =
        some ⟨vs, vps, vk, acc ++ [hd]⟩ := by
      simp [addBlockFromProto, blockToProto, hhb]
    have hnd2 : (keysOf ((acc ++ [hd]) ++ bs)).Nodup := by
      have : (acc ++ [hd]) ++ bs = acc ++ hd :: bs := by simp
      rw [this, hkeys]
      exact hnd
    have := ih (acc ++ [hd]) hnd2
    simp only [List.map_cons, List.length_cons, readBlocks, hadd]
    rw [this]
    simp

example :
    insertSeq (V := Nat) max BlockMergingStrategy.kProhibit ⟨1, 8, 0, []⟩
      [⟨(0,0,0), (0,0,0), [5]⟩] = some ⟨1, 8, 0, [((0,0,0), ⟨(0,0,0), [5]⟩)]⟩ := by
  decide

/-! ## Claim theorems -/

/-- C9: whenever `LoadLayer` fails before the header message has been read
successfully — open failure, message-count read failure, or zero message
count (and likewise a header-read failure) — the caller's layer output
pointer is left completely unmodified and the call returns false. -/
theorem loadLayer_early_failure_leaves_pointer {V : Type} (mergeV : V → V → V)
    (f : ProtoFile V) (p : Option (Layer V))
    (h : f.opens = false ∨ f.count = none ∨ f.count = some 0 ∨
      f.header = none) :
    LoadLayer mergeV f p = (false, p) := by
  by_cases hop : f.opens
  · rcases h with h | h | h | h
    · rw [hop] at h; exact absurd h (by simp)
    · simp [LoadLayer, hop, h]
    · simp [LoadLayer, hop, h]
    · cases hc : f.count with
      | none => simp [LoadLayer, hop, hc]
      | some n =>
        by_cases hn : n = 0
        · simp [LoadLayer, hop, hc, hn]
        · simp [LoadLayer, hop, hc, hn, h]
  · simp [LoadLayer, hop]

/-- C9 witness: a file that fails to open leaves a pre-existing pointer
value untouched. -/
theorem loadLayer_early_failure_leaves_pointer_witness :
    LoadLayer (V := Nat) max ⟨false, some 2, some ⟨1, 8, 0⟩, []⟩
      (some ⟨9, 9, 9, []⟩) = (false, some ⟨9, 9, 9, []⟩) :=
  loadLayer_early_failure_leaves_pointer max _ _ (Or.inl rfl)

/-- C6: on an open file whose leading message count reads as zero,
`LoadLayer` fails without reading the header or any block message (its
result does not depend on those stream fields); and it succeeds only when
the count `n` is nonzero, in which case exactly `n - 1` block messages after
the header are read and inserted, the result not depending on any message
beyond them. -/
theorem loadLayer_count_semantics {V : Type} (mergeV : V → V → V)
    (f : ProtoFile V) (p : Option (Layer V)) (hopen : f.opens = true) :
    (f.count = some 0 → ∀ hdr2 blocks2,
      LoadLayer mergeV ⟨f.opens, f.count, hdr2, blocks2⟩ p = (false, p)) ∧
    ((LoadLayer mergeV f p).1 = true →
      ∃ (n : Nat) (hdr : LayerHeader) (good : List (BlockProto V))
        (lfin : Layer V),
        f.count = some n ∧ n ≠ 0 ∧ f.header = some hdr ∧
        f.blocks.take (n - 1) = good.map some ∧ good.length = n - 1 ∧
        insertSeq mergeV BlockMergingStrategy.kProhibit (layerFromProto hdr)
          good = some lfin ∧
        LoadLayer mergeV f p = (true, some lfin) ∧
        ∀ tl, LoadLayer mergeV ⟨f.opens, f.count, f.header,
          good.map some ++ tl⟩ p = (true, some lfin)) := by
  constructor
  · intro h0 hdr2 blocks2
    simp [LoadLayer, hopen, h0]
  · intro hsucc
    rcases hc : f.count with - | n
    · simp [LoadLayer, hopen, hc] at hsucc
    · by_cases hn : n = 0
      · simp [LoadLayer, hopen, hc, hn] at hsucc
      · rcases hh : f.header with - | hdr
        · simp [LoadLayer, hopen, hc, hn, hh] at hsucc
        · have hsucc2 : (readBlocks mergeV BlockMergingStrategy.kProhibit
              (n - 1) f.blocks (layerFromProto hdr)).1 = true := by
            simpa [LoadLayer, hopen, hc, hn, hh] using hsucc
          have hrb : readBlocks mergeV BlockMergingStrategy.kProhibit (n - 1)
              f.blocks (layerFromProto hdr) =
              (true, (readBlocks mergeV BlockMergingStrategy.kProhibit (n - 1)
                f.blocks (layerFromProto hdr)).2) := by
            rw [← hsucc2]
          obtain ⟨good, tl, hmsgs, hlen, hins⟩ :=
            readBlocks_ok mergeV BlockMergingStrategy.kProhibit (n - 1)
              f.blocks (layerFromProto hdr) _ hrb
          refine ⟨n, hdr, good, _, rfl, hn, rfl, ?_, hlen, hins, ?_, ?_⟩
          · rw [hmsgs, ← hlen]
            have h2 : good.length = (good.map some).length := by simp
            rw [h2, List.take_left]
          · have h3 : LoadLayer mergeV f p =
                ((readBlocks mergeV BlockMergingStrategy.kProhibit (n - 1)
                  f.blocks (layerFromProto hdr)).1,
                 some (readBlocks mergeV BlockMergingStrategy.kProhibit (n - 1)
                  f.blocks (layerFromProto hdr)).2) := by
              simp [LoadLayer, hopen, hc, hn, hh]
            rw [h3, hsucc2]
          · intro tl2
            have hpre := readBlocks_consume mergeV BlockMergingStrategy.kProhibit
              good 0 tl2 (layerFromProto hdr) _ hins
            rw [Nat.add_zero] at hpre
            simp [LoadLayer, hopen, hn, ← hlen, hpre, readBlocks]

/-- C6 witness: an open file announcing zero messages makes `LoadLayer`
fail with the pointer untouched, whatever the header and block fields
hold. -/
theorem loadLayer_count_semantics_witness :
    LoadLayer (V := Nat) max ⟨true, some 0, none, []⟩ none = (false, none) :=
  (loadLayer_count_semantics max ⟨true, some 0, some ⟨1, 8, 0⟩,
    [some ⟨(0,0,0), (0,0,0), [5]⟩]⟩ none rfl).1 rfl none []

/-- C1 counterexample: a file with message count 3, a readable header and a
readable first block whose second block message is malformed makes
`LoadLayer` return false — yet the caller's output pointer ends up holding a
partially-filled layer (it contains the first block), contradicting the
claim that no partially-usable layer is returned through the pointer. -/
theorem loadLayer_partial_pointer_cex :
    (LoadLayer (V := Nat) max
      ⟨true, some 3, some ⟨1, 8, 0⟩,
        [some ⟨(0,0,0), (0,0,0), [5]⟩, none]⟩ none) =
      (false, some ⟨1, 8, 0, [((0,0,0), ⟨(0,0,0), [5]⟩)]⟩) ∧
    ([((0,0,0), ⟨(0,0,0), [5]⟩)] : List (BlockIndex × Block Nat)) ≠ [] := by
  decide

/-- C1 (amended): if the message count, header and some prefix of block
messages are readable but a later block message among the announced ones is
malformed or fails to insert (duplicate coordinate under Prohibit),
`LoadLayer` reports failure — but the caller's output pointer is assigned
the header-constructed layer holding exactly the blocks inserted before the
failure, a partially-filled layer. -/
theorem loadLayer_block_failure_partial {V : Type} (mergeV : V → V → V)
    (f : ProtoFile V) (p : Option (Layer V)) (hdr : LayerHeader) (n : Nat)
    (good : List (BlockProto V)) (bad : Option (BlockProto V))
    (rest : List (Option (BlockProto V))) (lk : Layer V)
    (hopen : f.opens = true) (hcount : f.count = some n)
    (hhdr : f.header = some hdr)
    (hblocks : f.blocks = good.map some ++ bad :: rest)
    (hlen : good.length < n - 1)
    (hgood : insertSeq mergeV BlockMergingStrategy.kProhibit
      (layerFromProto hdr) good = some lk)
    (hfail : ∀ b, bad = some b →
      addBlockFromProto mergeV lk b BlockMergingStrategy.kProhibit = none) :
    LoadLayer mergeV f p = (false, some lk) := by
  have hn : ¬n = 0 := by omega
  have hrb := readBlocks_fail mergeV BlockMergingStrategy.kProhibit good bad
    rest (layerFromProto hdr) lk (n - 1) hlen hgood hfail
  simp [LoadLayer, hopen, hcount, hn, hhdr, hblocks, hrb]

/-- C1 witness: concrete instance of the amended claim — the malformed
second block makes `LoadLayer` fail with the one-block partial layer in the
caller's pointer. -/
theorem loadLayer_block_failure_partial_witness :
    LoadLayer (V := Nat) max
      ⟨true, some 4, some ⟨1, 8, 0⟩,
        [some ⟨(0,0,0), (0,0,0), [5]⟩, none, some ⟨(1,0,0), (1,0,0), [7]⟩]⟩
      none = (false, some ⟨1, 8, 0, [((0,0,0), ⟨(0,0,0), [5]⟩)]⟩) :=
  loadLayer_block_failure_partial max _ none ⟨1, 8, 0⟩ 4
    [⟨(0,0,0), (0,0,0), [5]⟩] none [some ⟨(1,0,0), (1,0,0), [7]⟩]
    ⟨1, 8, 0, [((0,0,0), ⟨(0,0,0), [5]⟩)]⟩
    rfl rfl rfl rfl (by decide) (by decide) (fun b hb => by cases hb)

/-- C3: on any failure of the open / count / zero-count / header-read
sequence, `LoadOrCreateLayerHeader` does not surface an error: it returns
the freshly constructed empty layer built from the caller-supplied
voxel_size and voxels_per_side. -/
theorem loadOrCreateHeader_fallback {V : Type} (vkind : Nat)
    (f : ProtoFile V) (voxel_size : ℚ) (voxels_per_side : Nat)
    (h : f.opens = false ∨ f.count = none ∨ f.count = some 0 ∨
      f.header = none) :
    LoadOrCreateLayerHeader (V := V) vkind f voxel_size voxels_per_side =
      some (emptyLayer vkind voxel_size voxels_per_side) := by
  have hnone : headerLoadResult f = none := by
    by_cases hop : f.opens
    · rcases h with h | h | h | h
      · rw [hop] at h; exact absurd h (by simp)
      · simp [headerLoadResult, hop, h]
      · simp [headerLoadResult, hop, h]
      · cases hc : f.count with
        | none => simp [headerLoadResult, hop, hc]
        | some n =>
          by_cases hn : n = 0
          · simp [headerLoadResult, hop, hc, hn]
          · simp [headerLoadResult, hop, hc, hn, h]
    · simp [headerLoadResult, hop]
  rw [LoadOrCreateLayerHeader, hnone]

/-- C3 witness: a file that does not open yields the empty layer built from
the caller-supplied parameters. -/
theorem loadOrCreateHeader_fallback_witness :
    LoadOrCreateLayerHeader (V := Nat) 0 ⟨false, some 5, some ⟨2, 16, 1⟩, []⟩
      1 8 = some (emptyLayer 0 1 8) :=
  loadOrCreateHeader_fallback 0 _ 1 8 (Or.inl rfl)

/-- C2: when the file header does not exactly match the target layer's
voxel_size, voxels_per_side and voxel_kind, `LoadBlocksFromFile` returns
failure and the target layer is left byte-for-byte unchanged — no block is
added, removed or modified. -/
theorem loadBlocks_incompatible_unchanged {V : Type} (mergeV : V → V → V)
    (f : ProtoFile V) (strategy : BlockMergingStrategy) (l : Layer V)
    (hdr : LayerHeader) (hhdr : f.header = some hdr)
    (hne : ¬(l.voxel_size = hdr.voxel_size ∧
      l.voxels_per_side = hdr.voxels_per_side ∧
      l.voxel_kind = hdr.voxel_kind)) :
    LoadBlocksFromFile mergeV f strategy l = (false, l) := by
  have hcompat : isCompatible l hdr = false := by
    simp [isCompatible, hne]
  by_cases hop : f.opens
  · cases hc : f.count with
    | none => simp [LoadBlocksFromFile, hop, hc]
    | some n =>
      by_cases hn : n = 0
      · simp [LoadBlocksFromFile, hop, hc, hn]
      · simp [LoadBlocksFromFile, hop, hc, hn, hhdr, hcompat]
  · simp [LoadBlocksFromFile, hop]

/-- C2 witness: loading a file whose header carries a different voxel_size
into a one-block layer fails and leaves the layer unchanged. -/
theorem loadBlocks_incompatible_unchanged_witness :
    LoadBlocksFromFile (V := Nat) max
      ⟨true, some 2, some ⟨2, 8, 0⟩, [some ⟨(1,0,0), (1,0,0), [7]⟩]⟩
      BlockMergingStrategy.kProhibit ⟨1, 8, 0, [((0,0,0), ⟨(0,0,0), [5]⟩)]⟩ =
    (false, ⟨1, 8, 0, [((0,0,0), ⟨(0,0,0), [5]⟩)]⟩) :=
  loadBlocks_incompatible_unchanged max _ _ _ ⟨2, 8, 0⟩ rfl (by decide)

/-- C4: on a compatible file, if reading or inserting block message `k`
fails, `LoadBlocksFromFile` returns failure, every block successfully
inserted before `k` remains in the target layer (no rollback), and no block
message after `k` is read — the result is the same whatever the stream holds
beyond the failing message. -/
theorem loadBlocks_midstream_failure {V : Type} (mergeV : V → V → V)
    (f : ProtoFile V) (strategy : BlockMergingStrategy) (l : Layer V)
    (hdr : LayerHeader) (n : Nat) (good : List (BlockProto V))
    (bad : Option (BlockProto V)) (rest : List (Option (BlockProto V)))
    (lk : Layer V)
    (hopen : f.opens = true) (hcount : f.count = some n)
    (hhdr : f.header = some hdr) (hcompat : isCompatible l hdr = true)
    (hblocks : f.blocks = good.map some ++ bad :: rest)
    (hlen : good.length < n - 1)
    (hgood : insertSeq mergeV strategy l good = some lk)
    (hfail : ∀ b, bad = some b →
      addBlockFromProto mergeV lk b strategy = none) :
    LoadBlocksFromFile mergeV f strategy l = (false, lk) ∧
    ∀ rest2, LoadBlocksFromFile mergeV
      ⟨f.opens, f.count, f.header, good.map some ++ bad :: rest2⟩ strategy l =
      (false, lk) := by
  have hn : ¬n = 0 := by omega
  constructor
  · have hrb := readBlocks_fail mergeV strategy good bad rest l lk (n - 1)
      hlen hgood hfail
    simp [LoadBlocksFromFile, hopen, hcount, hn, hhdr, hcompat, hblocks, hrb]
  · intro rest2
    have hrb := readBlocks_fail mergeV strategy good bad rest2 l lk (n - 1)
      hlen hgood hfail
    simp [LoadBlocksFromFile, hopen, hcount, hn, hhdr, hcompat, hrb]

/-- C4 witness: a compatible file whose second announced block message is
malformed makes `LoadBlocksFromFile` fail while the first block stays
inserted in the target layer. -/
theorem loadBlocks_midstream_failure_witness :
    LoadBlocksFromFile (V := Nat) max
      ⟨true, some 4, some ⟨1, 8, 0⟩,
        [some ⟨(1,0,0), (1,0,0), [7]⟩, none, some ⟨(2,0,0), (2,0,0), [9]⟩]⟩
      BlockMergingStrategy.kProhibit ⟨1, 8, 0, [((0,0,0), ⟨(0,0,0), [5]⟩)]⟩ =
    (false, ⟨1, 8, 0, [((0,0,0), ⟨(0,0,0), [5]⟩),
      ((1,0,0), ⟨(1,0,0), [7]⟩)]⟩) :=
  (loadBlocks_midstream_failure max _ BlockMergingStrategy.kProhibit
    ⟨1, 8, 0, [((0,0,0), ⟨(0,0,0), [5]⟩)]⟩ ⟨1, 8, 0⟩ 4
    [⟨(1,0,0), (1,0,0), [7]⟩] none [some ⟨(2,0,0), (2,0,0), [9]⟩]
    ⟨1, 8, 0, [((0,0,0), ⟨(0,0,0), [5]⟩), ((1,0,0), ⟨(1,0,0), [7]⟩)]⟩
    rfl rfl rfl (by decide) rfl (by decide) (by decide)
    (fun b hb => by cases hb)).1

/-- C5: saving a layer whose resident block coordinates are distinct and
reloading the written stream succeeds and reproduces the layer exactly —
identical metadata and, for every block coordinate, voxel-for-voxel equal
contents (the model serializes voxel payloads exactly, so equality within
any epsilon follows). -/
theorem save_load_roundtrip {V : Type} (mergeV : V → V → V) (l : Layer V)
    (h : (keysOf l.blocks).Nodup) :
    LoadLayer mergeV (SaveLayer l) none = (true, some l) := by
  have hrt := readBlocks_save mergeV l.voxel_size l.voxels_per_side
    l.voxel_kind l.blocks [] (by simpa using h)
  have hn : ¬l.blocks.length + 1 = 0 := by omega
  simp only [List.nil_append] at hrt
  simp [LoadLayer, SaveLayer, saveToFile, hn, layerFromProto, hrt]

/-- C5 witness: a two-block layer survives the save/load round trip
unchanged. -/
theorem save_load_roundtrip_witness :
    LoadLayer (V := Nat) max
      (SaveLayer ⟨1, 8, 0, [((0,0,0), ⟨(0,0,0), [1, 2]⟩),
        ((1,0,0), ⟨(1,0,0), [3]⟩)]⟩) none =
    (true, some ⟨1, 8, 0, [((0,0,0), ⟨(0,0,0), [1, 2]⟩),
      ((1,0,0), ⟨(1,0,0), [3]⟩)]⟩) :=
  save_load_roundtrip max _ (by decide)

/-- C7: the neighborhood of an isolated foreground voxel — the center
foreground, all 26 neighbors background — is never classified as a simple
(removable) point by `isSimplePoint`. -/
theorem isolated_voxel_not_simple :
    isSimplePoint isolatedNeighborhood = false := by
  decide

lemma distSq_symm (u v : GVertex) : distSq u v = distSq v u := by
  unfold distSq
  ring

lemma withinRadius_symm (R : ℤ) (u v : GVertex) :
    withinRadius R u v = withinRadius R v u := by
  unfold withinRadius
  rw [distSq_symm]

lemma not_demoted_of_mem_prune (R : ℤ) (vs : List GVertex) (v : GVertex)
    (hv : v ∈ pruneDiagramVertices R vs) :
    v ∈ vs ∧ ∀ w ∈ vs, w.vid ≠ v.vid → withinRadius R w v = true →
      ¬v.dist < w.dist := by
  rw [pruneDiagramVertices, List.mem_filter] at hv
  refine ⟨hv.1, ?_⟩
  have hdem : demoted R vs v = false := by
    have := hv.2
    rcases hb : demoted R vs v
    · rfl
    · rw [hb] at this; exact absurd this (by simp)
  intro w hw hne hnear hlt
  rw [demoted, List.any_eq_false] at hdem
  have := hdem w hw
  simp only [Bool.and_eq_true, decide_eq_true_eq, not_and] at this
  exact this ⟨hne, hnear⟩ hlt

/-- C8 counterexample: two vertices with exactly equal stored distance
lying strictly closer than the pruning radius both survive
`pruneDiagramVertices`, so the claim that no two surviving vertices lie
strictly closer than R fails at exact distance ties. -/
theorem pruneVertices_tie_cex :
    pruneDiagramVertices 2 [⟨0, 0, 0, 0, 5⟩, ⟨1, 1, 0, 0, 5⟩] =
      [⟨0, 0, 0, 0, 5⟩, ⟨1, 1, 0, 0, 5⟩] ∧
    withinRadius 2 ⟨0, 0, 0, 0, 5⟩ ⟨1, 1, 0, 0, 5⟩ = true ∧
    (⟨0, 0, 0, 0, 5⟩ : GVertex).vid ≠ (⟨1, 1, 0, 0, 5⟩ : GVertex).vid := by
  decide

/-- C8 (amended): after `pruneDiagramVertices` with radius R, any two
surviving vertices lying strictly closer than R carry exactly equal stored
distance (ties survive together), and every surviving vertex carries the
maximum stored distance among all vertices within R of it — in particular,
within any mutually-within-radius group every retained vertex realizes the
group's maximum. -/
theorem pruneVertices_survivors (R : ℤ) (vs : List GVertex) (u v : GVertex)
    (hu : u ∈ pruneDiagramVertices R vs) (hv : v ∈ pruneDiagramVertices R vs) :
    (u.vid ≠ v.vid → withinRadius R u v = true → u.dist = v.dist) ∧
    (∀ w ∈ vs, w.vid ≠ v.vid → withinRadius R w v = true →
      w.dist ≤ v.dist) := by
  obtain ⟨humem, humax⟩ := not_demoted_of_mem_prune R vs u hu
  obtain ⟨hvmem, hvmax⟩ := not_demoted_of_mem_prune R vs v hv
  constructor
  · intro hne hnear
    rcases lt_trichotomy u.dist v.dist with hlt | heq | hgt
    · exact absurd hlt (humax v hvmem (fun e => hne e.symm)
        (by rw [withinRadius_symm]; exact hnear))
    · exact heq
    · exact absurd hgt (hvmax u humem hne hnear)
  · intro w hw hne hnear
    exact not_lt.mp (hvmax w hw hne hnear)

/-- C8 witness: in a concrete tie configuration both vertices survive and
the amended theorem forces their stored distances to be equal. -/
theorem pruneVertices_survivors_witness :
    (⟨0, 0, 0, 0, 5⟩ : GVertex).dist = (⟨1, 1, 0, 0, 5⟩ : GVertex).dist :=
  (pruneVertices_survivors 2 [⟨0, 0, 0, 0, 5⟩, ⟨1, 1, 0, 0, 5⟩]
    ⟨0, 0, 0, 0, 5⟩ ⟨1, 1, 0, 0, 5⟩ (by decide) (by decide)).1
    (by decide) (by decide)

/-- C10: for every stream state and caller-supplied parameters,
`LoadOrCreateLayerHeader` returns a non-null layer pointer — it assigns the
pointer on both the success branch and every failure branch. -/
theorem loadOrCreateHeader_never_null {V : Type} (vkind : Nat)
    (f : ProtoFile V) (voxel_size : ℚ) (voxels_per_side : Nat) :
    (LoadOrCreateLayerHeader (V := V) vkind f voxel_size
      voxels_per_side).isSome = true := by
  rw [LoadOrCreateLayerHeader]
  cases headerLoadResult f <;> rfl

example :
    LoadLayer (V := Nat) max
      ⟨true, some 1, some ⟨1, 8, 0⟩, []⟩ none = (true, none) → False := by
  decide

example :
    (LoadLayer (V := Nat) max
      ⟨true, some 1, some ⟨1, 8, 0⟩, []⟩ none).1 = true := by
  decide

example :
    (LoadLayer (V := Nat) max
      ⟨true, some 0, some ⟨1, 8, 0⟩, []⟩ none) = (false, none) := by
  decide

example :
    (LoadLayer (V := Nat) max
      ⟨true, some 3, some ⟨1, 8, 0⟩,
        [some ⟨(0,0,0), (0,0,0), [5]⟩, none]⟩ none) =
      (false, some ⟨1, 8, 0, [((0,0,0), ⟨(0,0,0), [5]⟩)]⟩) := by
  decide

end Voxblox
